import Mathlib

/-!
Shallow embedding of the WinOps-Guard event-log collector (`src/main.go`).

The collector is a single Go file that drives the Windows event-log API
(wevtapi.dll).  Pure Go functions (`normalizeLogName`, `buildQuery`,
`mapLevel`) are embedded directly.  Functions that call into the native
DLL (`evtQuery`, `evtNextBatch`, `renderEventXML`, `formatMessage`,
`publisherCache.get`, and the loop of `fetchEvents`) are embedded with
the syscall boundary represented by explicit outcome values / oracle
functions: each native call's result (return value, errno, out-params)
is a parameter, and the embedded definition reproduces the Go control
flow on top of those results.  Handle bookkeeping (which handles were
closed, how many metadata-open calls were made) is returned explicitly
so that resource-management properties can be stated.
-/

namespace WinOpsGuard

/-! ## String helpers (ASCII fragments of the Go standard library) -/

/-- The ASCII fragment of Go's `unicode.IsSpace` (the characters
`strings.TrimSpace` trims).  Non-ASCII Unicode space runes are outside
the modelled fragment. -/
def isSpaceGo (c : Char) : Bool :=
  c = ' ' || c = '\t' || c = '\n' || c = '\x0b' || c = '\x0c' || c = '\r'

/-- Go `strings.TrimSpace` on the character list: drop leading and
trailing whitespace. -/
def trimSpaceL (l : List Char) : List Char :=
  ((l.dropWhile isSpaceGo).reverse.dropWhile isSpaceGo).reverse

/-- Go `strings.TrimSpace` (ASCII-whitespace fragment). -/
def trimSpace (s : String) : String :=
  ⟨trimSpaceL s.toList⟩

/-- Go `strings.ToLower` (per-rune simple lowering; `Char.toLower` is
exactly the ASCII case of Go's table, which is all the claims use). -/
def toLowerStr (s : String) : String :=
  ⟨s.toList.map Char.toLower⟩

/-- Go `windows.UTF16PtrFromString` fails exactly when the string
contains an interior NUL; this predicate captures that failure case. -/
def containsNUL (s : String) : Bool :=
  s.toList.any (fun c => c = '\x00')

/-! ## `normalizeLogName` (src/main.go:130-141) -/

/-- Embedding of `normalizeLogName`: switch on
`strings.ToLower(strings.TrimSpace(name))`; `"application"` and the
empty string map to `"Application"`, `"system"` to `"System"`,
`"setup"` to `"Setup"`, anything else is an unsupported-log error. -/
def normalizeLogName (name : String) : Except String String :=
  let key := toLowerStr (trimSpace name)
  if key = "application" ∨ key = "" then .ok "Application"
  else if key = "system" then .ok "System"
  else if key = "setup" then .ok "Setup"
  else .error ("unsupported log: " ++ name ++ " (use application|system|setup)")

/-! ## `mapLevel` (src/main.go:348-359) -/

/-- Embedding of `mapLevel`: a closed switch on the numeric level.
The Go argument is a `uint32`; it is represented as a `Nat` (claims
that speak about 32-bit inputs add the `< 2^32` bound explicitly). -/
def mapLevel (level : Nat) : String :=
  match level with
  | 2 => "Error"
  | 3 => "Warning"
  | 4 => "Information"
  | _ => "Unknown"

/-! ## `buildQuery` (src/main.go:197-203) and `strconv.Quote` -/

/-- Per-character body of Go's `strconv.Quote` on the printable-ASCII
fragment (the only runes the claims exercise): `"` becomes `\"`, `\`
becomes `\\`, every other printable character is passed through. -/
def goQuoteChar (c : Char) : String :=
  if c = '"' then "\\\""
  else if c = '\\' then "\\\\"
  else String.singleton c

/-- Go `strconv.Quote` (printable-ASCII fragment): a double-quoted,
backslash-escaped Go string literal. -/
def goQuote (s : String) : String :=
  "\"" ++ String.join (s.toList.map goQuoteChar) ++ "\""

/-- Embedding of `buildQuery`: the XPath query string sent to
`EvtQuery`.  `ms` is the lookback window in milliseconds (a Go `int`,
modelled as `Int`). -/
def buildQuery (ms : Int) (provider : String) : String :=
  if provider = "" then
    "*[System[TimeCreated[timediff(@SystemTime) <= " ++ toString ms ++ "]]]"
  else
    "*[System[Provider[@Name=" ++ goQuote provider ++
      "] and TimeCreated[timediff(@SystemTime) <= " ++ toString ms ++ "]]]"

/-- Strip an expected prefix from a character list; `none` if the list
does not start with it. -/
def dropPrefixQ : List Char → List Char → Option (List Char)
  | [], l => some l
  | _ :: _, [] => none
  | p :: ps, c :: cs => if p = c then dropPrefixQ ps cs else none

/-- Scan to the closing `"` of an XPath double-quoted literal: returns
the literal body (everything before the first `"`) and the remainder
after it, or `none` if no closing quote exists. -/
def xpathLiteralSplit : List Char → Option (List Char × List Char)
  | [] => none
  | c :: rest =>
    if c = '"' then some ([], rest)
    else (xpathLiteralSplit rest).map (fun p => (c :: p.1, p.2))

/-- Modelled from the spec: syntactic well-formedness of the generated
provider-filtered query in the consumer's query filter language (the
Windows event-log XPath 1.0 subset, whose string literals are `"…"`
with NO escape mechanism — a `"` always terminates the literal).  The
query must be the fixed prefix `*[System[Provider[@Name=`, then one
complete double-quoted literal, then exactly
`] and TimeCreated[timediff(@SystemTime) <= ms]]]`.  An embedded quote
"breaks out" of the filter clause precisely when this fails. -/
def providerClauseWellFormed (ms : Int) (q : String) : Bool :=
  match dropPrefixQ ("*[System[Provider[@Name=").toList q.toList with
  | none => false
  | some rest =>
    match rest with
    | '"' :: afterOpen =>
      match xpathLiteralSplit afterOpen with
      | none => false
      | some (_, rem) =>
        decide (rem =
          ("] and TimeCreated[timediff(@SystemTime) <= " ++ toString ms ++ "]]]").toList)
    | _ => false

/-! ## The two-phase render/format protocol
(`renderEventXML` src/main.go:275-309, `formatMessage` src/main.go:311-346) -/

/-- Outcome of the size-discovery native call (`EvtRender` /
`EvtFormatMessage` invoked with a null buffer): either the call
returned nonzero (success, with the value it wrote to the used-size
out-param), or it returned zero with `ERROR_INSUFFICIENT_BUFFER`
(writing the required size), or it returned zero with some other
error. -/
inductive SizeProbe where
  | success (used : Nat)
  | insufficientBuffer (used : Nat)
  | failure (e : String)
deriving DecidableEq

/-- Outcome of the fill-phase native call on the allocated buffer:
nonzero return with the decoded UTF-16 text, or zero return with an
error. -/
inductive FillResult where
  | success (text : String)
  | failure (e : String)
deriving DecidableEq

/-- Result of running a fragment of Go code: a value, a returned
`error`, or a runtime panic (e.g. an out-of-range slice index). -/
inductive GoResult (α : Type) where
  | ok (val : α)
  | goError (e : String)
  | panicked (msg : String)
deriving DecidableEq

/-- `true` exactly on the panic outcome. -/
def GoResult.isPanicked : GoResult α → Bool
  | .panicked _ => true
  | _ => false

/-- The used-size value available after the discovery phase (`none`
when the discovery call failed with a non-buffer error, in which case
the function returns before reading it). -/
def SizeProbe.reported : SizeProbe → Option Nat
  | .success u => some u
  | .insufficientBuffer u => some u
  | .failure _ => none

/-- Embedding of `renderEventXML`.  `probe` is the outcome of the
size-discovery `EvtRender` call; `fill` gives, for the buffer length
actually allocated (`make([]uint16, bufferUsed)`), the outcome of the
second `EvtRender` call.  The Go code then takes `&buffer[0]`, which
panics when the allocated length is zero. -/
def renderEventXML (probe : SizeProbe) (fill : Nat → FillResult) : GoResult String :=
  match probe with
  | .failure e => .goError ("EvtRender(size): " ++ e)
  | .success used | .insufficientBuffer used =>
    if used = 0 then .panicked "index out of range [0] with length 0"
    else
      match fill used with
      | .success text => .ok text
      | .failure e => .goError ("EvtRender: " ++ e)

/-- Embedding of `formatMessage`: same two-phase shape over
`EvtFormatMessage` (buffer `make([]uint16, used)`, then `&buf[0]`),
with `strings.TrimSpace` applied to the successful result. -/
def formatMessage (probe : SizeProbe) (fill : Nat → FillResult) : GoResult String :=
  match probe with
  | .failure e => .goError ("EvtFormatMessage(size): " ++ e)
  | .success used | .insufficientBuffer used =>
    if used = 0 then .panicked "index out of range [0] with length 0"
    else
      match fill used with
      | .success text => .ok (trimSpace text)
      | .failure e => .goError ("EvtFormatMessage: " ++ e)

/-! ## Publisher metadata cache (`publisherCache.get`, src/main.go:65-91) -/

/-- State of one collection run's `publisherCache` together with a log
of the `EvtOpenPublisherMetadata` calls made.  The Go
`map[string]windows.Handle` is modelled as an insertion-ordered
association list. -/
structure CacheState where
  handles : List (String × Nat)
  openCalls : List String
deriving DecidableEq

/-- Map lookup (`c.handles[provider]`). -/
def findHandle : List (String × Nat) → String → Option Nat
  | [], _ => none
  | (k, h) :: rest, p => if k = p then some h else findHandle rest p

/-- Embedding of `publisherCache.get`.  `openMeta` gives the outcome of
the `EvtOpenPublisherMetadata` syscall per provider (error = the call
returned a zero handle).  On a cache hit the handle is returned with no
native call; on a miss the UTF-16 conversion is checked, the open call
is made (and logged), and a successful handle is stored. -/
def publisherCacheGet (openMeta : String → Except String Nat) (provider : String)
    (st : CacheState) : Except String Nat × CacheState :=
  match findHandle st.handles provider with
  | some h => (.ok h, st)
  | none =>
    if containsNUL provider then
      (.error "publisher UTF16: invalid argument", st)
    else
      match openMeta provider with
      | .error e =>
        (.error ("EvtOpenPublisherMetadata: " ++ e),
          { st with openCalls := st.openCalls ++ [provider] })
      | .ok h =>
        (.ok h,
          { handles := st.handles ++ [(provider, h)],
            openCalls := st.openCalls ++ [provider] })

/-- Number of cached handles stored under a given provider name. -/
def countKey (m : List (String × Nat)) (k : String) : Nat :=
  (m.filter (fun q => q.1 = k)).length

/-- Number of metadata-open calls logged for a given provider name. -/
def countOpens (log : List String) (k : String) : Nat :=
  (log.filter (fun q => q = k)).length

/-! ## Batch enumeration and the collection loop
(`evtNextBatch` src/main.go:218-236, `fetchEvents` src/main.go:143-195) -/

/-- Outcome of one `EvtNext` syscall: nonzero return with the first
`returned` handles (`handles[:returned]`), or zero return with
`ERROR_NO_MORE_ITEMS`, or zero return with any other error. -/
inductive EvtNextOutcome where
  | batch (handles : List Nat)
  | noMoreItems
  | callFailure (e : String)
deriving DecidableEq

/-- The error side of `evtNextBatch`: the `ERROR_NO_MORE_ITEMS`
sentinel is returned as-is (so the caller can compare against it),
every other failure is wrapped as a fetch error. -/
inductive BatchError where
  | errNoMoreItems
  | fetchFailed (e : String)
deriving DecidableEq

/-- Embedding of `evtNextBatch`: classify the raw `EvtNext` outcome. -/
def evtNextBatch (outcome : EvtNextOutcome) : Except BatchError (List Nat) :=
  match outcome with
  | .batch hs => .ok hs
  | .noMoreItems => .error .errNoMoreItems
  | .callFailure e => .error (.fetchFailed ("EvtNext: " ++ e))

/-- The normalized record assembled per event
(`eventRecord`, src/main.go:39-45); the timestamp is a UTC instant. -/
structure EventRecord where
  timeGenerated : Int
  level : String
  eventId : Nat
  source : String
  message : String
deriving DecidableEq

/-- Inner loop of `fetchEvents` over one batch's handles
(src/main.go:182-192).  `parse` is the per-handle outcome of
`parseEvent` (the record renderer, whose internals are embedded and
verified separately; the loop only observes its `Except` result).
Each handle is closed (appended to `closed`) immediately after
`parseEvent` returns, before the error check; on a parse error the
loop aborts; after a successful append, if the cap is reached the loop
breaks — WITHOUT touching the remaining handles of the batch. -/
def processBatch (parse : Nat → Except String EventRecord) (maxEvents : Nat) :
    List Nat → List EventRecord → List Nat →
    Except String (List EventRecord) × List Nat
  | [], results, closed => (.ok results, closed)
  | h :: rest, results, closed =>
    match parse h with
    | .error e => (.error e, closed ++ [h])
    | .ok rec =>
      let results2 := results ++ [rec]
      if maxEvents ≤ results2.length then (.ok results2, closed ++ [h])
      else processBatch parse maxEvents rest results2 (closed ++ [h])

/-- Outer loop of `fetchEvents` (src/main.go:174-193): while fewer than
`maxEvents` records are accumulated, take the next scripted `EvtNext`
outcome; `ERROR_NO_MORE_ITEMS` breaks the loop successfully, any other
fetch error aborts, a batch is handed to the inner loop.  An exhausted
script (the mock provides no further native responses) is modelled as
loop exit with the accumulated records. -/
def fetchLoop (parse : Nat → Except String EventRecord) (maxEvents : Nat) :
    List EvtNextOutcome → List EventRecord → List Nat →
    Except String (List EventRecord) × List Nat
  | script, results, closed =>
    if results.length < maxEvents then
      match script with
      | [] => (.ok results, closed)
      | o :: rest =>
        match evtNextBatch o with
        | .error .errNoMoreItems => (.ok results, closed)
        | .error (.fetchFailed e) => (.error e, closed)
        | .ok handles =>
          match processBatch parse maxEvents handles results closed with
          | (.error e, closed2) => (.error e, closed2)
          | (.ok results2, closed2) => fetchLoop parse maxEvents rest results2 closed2
    else (.ok results, closed)

/-- The mocked native environment one `fetchEvents` run interacts
with: the `EvtQuery` outcome (error = zero handle returned), the
scripted sequence of `EvtNext` outcomes, and the per-handle
`parseEvent` outcome. -/
structure QueryEnv where
  queryOutcome : Except String Nat
  script : List EvtNextOutcome
  parse : Nat → Except String EventRecord

/-- What a `fetchEvents` run produced: the returned records or error,
and the ordered list of RESULT handles passed to `evtCloseHandle`
inside the batching loop (the query handle and cached metadata handles
are closed by `defer` and are not result handles). -/
structure FetchResult where
  outcome : Except String (List EventRecord)
  closedResultHandles : List Nat

/-- Embedding of `fetchEvents` (src/main.go:143-195): substitute
defaults for non-positive `minutes` / `maxEvents`, build the query,
check both UTF-16 conversions, open the query handle, then run the
batching loop. -/
def fetchEvents (env : QueryEnv) (logName provider : String)
    (minutes maxEvents : Int) : FetchResult :=
  let minutes2 := if minutes ≤ 0 then 10 else minutes
  let maxEvents2 := if maxEvents ≤ 0 then 256 else maxEvents
  let ms := minutes2 * 60 * 1000
  let queryStr := buildQuery ms provider
  if containsNUL queryStr then
    { outcome := .error "query UTF16: invalid argument", closedResultHandles := [] }
  else if containsNUL logName then
    { outcome := .error "path UTF16: invalid argument", closedResultHandles := [] }
  else
    match env.queryOutcome with
    | .error e =>
      { outcome := .error ("EvtQuery: " ++ e), closedResultHandles := [] }
    | .ok _ =>
      let r := fetchLoop env.parse maxEvents2.toNat env.script [] []
      { outcome := r.1, closedResultHandles := r.2 }

/-- What a whole collector run produced: the program's result, and
whether `fetchEvents` — the only site of native calls — was entered at
all (channel validation is pure and precedes it). -/
structure RunResult where
  outcome : Except String (List EventRecord)
  fetchInvoked : Bool

/-- Embedding of `main`'s collection pipeline (src/main.go:109-119):
validate the channel name first; on failure exit with the error and
zero native calls, otherwise run `fetchEvents` on the canonical
channel with the whitespace-trimmed provider filter. -/
def runCollector (env : QueryEnv) (logName provider : String)
    (minutes maxEvents : Int) : RunResult :=
  match normalizeLogName logName with
  | .error e => { outcome := .error e, fetchInvoked := false }
  | .ok channel =>
    let fr := fetchEvents env channel (trimSpace provider) minutes maxEvents
    { outcome := fr.outcome, fetchInvoked := true }

/-! ## Concrete scenarios used by individual claims -/

/-- The mocked native environment of the spec's cap-mid-batch test:
`EvtNext` yields a batch of 3 handles, then a batch of 2 handles, then
`ERROR_NO_MORE_ITEMS`; every `parseEvent` succeeds. -/
def capScenarioEnv : QueryEnv :=
  { queryOutcome := .ok 7,
    script := [.batch [1, 2, 3], .batch [4, 5], .noMoreItems],
    parse := fun h => .ok ⟨0, "Information", h, "Prov", "msg"⟩ }

/-- `fetchEvents` run on the cap-mid-batch scenario with
`maxRecords = 4`. -/
def capScenario : FetchResult :=
  fetchEvents capScenarioEnv "Application" "" 10 4

/-- Two successive `publisherCache.get` requests for the same provider
within one run: the first result/state, then the second computed from
the first's state. -/
def cacheGetTwice (openMeta : String → Except String Nat) (provider : String)
    (st : CacheState) : (Except String Nat × CacheState) × (Except String Nat × CacheState) :=
  let r1 := publisherCacheGet openMeta provider st
  (r1, publisherCacheGet openMeta provider r1.2)

/-! ## Helper lemmas -/

/-- The inner batch loop never grows the accumulator past the cap:
entering with strictly fewer than `maxE` records, a successful exit
carries at most `maxE` records. -/
theorem processBatch_ok_length (parse : Nat → Except String EventRecord) (maxE : Nat)
    (handles : List Nat) :
    ∀ results closed r,
      (processBatch parse maxE handles results closed).1 = Except.ok r →
      results.length < maxE → r.length ≤ maxE := by
  induction handles with
  | nil =>
    intro results closed r h hlt
    simp only [processBatch] at h
    cases h
    exact Nat.le_of_lt hlt
  | cons hd tl ih =>
    intro results closed r h hlt
    cases hp : parse hd with
    | error e =>
      simp only [processBatch, hp] at h
      exact Except.noConfusion h
    | ok rec =>
      simp only [processBatch, hp] at h
      by_cases hc : maxE ≤ (results ++ [rec]).length
      · rw [if_pos hc] at h
        simp only at h
        injection h with h2
        subst h2
        simpa using hlt
      · rw [if_neg hc] at h
        exact ih _ _ _ h (by simp at hc ⊢; omega)

/-- The outer collection loop preserves the record cap: entering with
at most `maxE` records, a successful exit carries at most `maxE`
records. -/
theorem fetchLoop_ok_length (parse : Nat → Except String EventRecord) (maxE : Nat)
    (script : List EvtNextOutcome) :
    ∀ results closed r,
      (fetchLoop parse maxE script results closed).1 = Except.ok r →
      results.length ≤ maxE → r.length ≤ maxE := by
  induction script with
  | nil =>
    intro results closed r h hle
    rw [fetchLoop] at h
    rw [ite_self] at h
    injection h with h2
    subst h2
    exact hle
  | cons o rest ih =>
    intro results closed r h hle
    by_cases hlt : results.length < maxE
    · rw [fetchLoop, if_pos hlt] at h
      cases o with
      | noMoreItems =>
        simp only [evtNextBatch] at h
        injection h with h2
        subst h2
        exact hle
      | callFailure e =>
        simp only [evtNextBatch] at h
        exact Except.noConfusion h
      | batch hs =>
        simp only [evtNextBatch] at h
        rcases hq : processBatch parse maxE hs results closed with ⟨res, cl⟩
        rw [hq] at h
        cases res with
        | error e => simp at h
        | ok results2 =>
          have hlen2 : results2.length ≤ maxE :=
            processBatch_ok_length parse maxE hs results closed results2
              (by rw [hq]) hlt
          exact ih results2 cl r (by simpa using h) hlen2
    · rw [fetchLoop, if_neg hlt] at h
      injection h with h2
      subst h2
      exact hle

/-- Lookup misses distribute over append: if a key is absent from the
front list, looking it up in an extended map looks in the extension. -/
theorem findHandle_append_none (m l : List (String × Nat)) (p : String)
    (h : findHandle m p = none) : findHandle (m ++ l) p = findHandle l p := by
  induction m with
  | nil => rfl
  | cons kv rest ih =>
    obtain ⟨k, v⟩ := kv
    by_cases hk : k = p
    · simp only [findHandle, if_pos hk] at h
      exact Option.noConfusion h
    · simp only [List.cons_append, findHandle, if_neg hk] at h ⊢
      exact ih h

/-- A key absent from the map has no stored handles. -/
theorem findHandle_none_countKey (m : List (String × Nat)) (p : String)
    (h : findHandle m p = none) : countKey m p = 0 := by
  induction m with
  | nil => rfl
  | cons kv rest ih =>
    obtain ⟨k, v⟩ := kv
    by_cases hk : k = p
    · simp only [findHandle, if_pos hk] at h
      exact Option.noConfusion h
    · simp only [findHandle, if_neg hk] at h
      simp only [countKey, List.filter] at ih ⊢
      simp [hk, ih h]

/-! ## Claim theorems -/

/-- C8: the severity-level mapping is total and exhaustive over all
unsigned 32-bit inputs: 2 maps to Error, 3 to Warning, 4 to
Information, and every other value (including 99 and 0) maps to
Unknown; no other outcome is possible and the mapping never fails. -/
theorem mapLevel_total_exhaustive (n : Nat) (hn : n < 2 ^ 32) :
    (mapLevel n = "Error" ↔ n = 2)
    ∧ (mapLevel n = "Warning" ↔ n = 3)
    ∧ (mapLevel n = "Information" ↔ n = 4)
    ∧ (n ≠ 2 ∧ n ≠ 3 ∧ n ≠ 4 → mapLevel n = "Unknown")
    ∧ (mapLevel n = "Error" ∨ mapLevel n = "Warning"
        ∨ mapLevel n = "Information" ∨ mapLevel n = "Unknown")
    ∧ mapLevel 99 = "Unknown" ∧ mapLevel 0 = "Unknown" := by
  rcases n with _ | _ | _ | _ | _ | m
  · decide
  · decide
  · decide
  · decide
  · decide
  · have hm : mapLevel (m + 5) = "Unknown" := rfl
    refine ⟨⟨fun h => absurd (hm.symm.trans h) (by decide), fun h => absurd h (by omega)⟩,
      ⟨fun h => absurd (hm.symm.trans h) (by decide), fun h => absurd h (by omega)⟩,
      ⟨fun h => absurd (hm.symm.trans h) (by decide), fun h => absurd h (by omega)⟩,
      fun _ => hm, Or.inr (Or.inr (Or.inr hm)), by decide, by decide⟩

/-- Witness for C8: the theorem applied at the concrete inputs 99 and
2 of the claim's table. -/
theorem mapLevel_total_exhaustive_witness :
    mapLevel 99 = "Unknown" ∧ (mapLevel 2 = "Error" ↔ 2 = 2) :=
  ⟨(mapLevel_total_exhaustive 99 (by decide)).2.2.2.2.2.1,
   (mapLevel_total_exhaustive 2 (by decide)).1⟩

/-- C10: `normalizeLogName` accepts the empty string and maps it to
the canonical channel "Application", so a run invoked with an empty
channel argument proceeds into `fetchEvents` instead of failing;
exactly the case-insensitive, whitespace-trimmed names application,
system, setup and the empty string are accepted. -/
theorem normalizeLogName_empty_accepted (name : String) (env : QueryEnv)
    (provider : String) (minutes maxEvents : Int) :
    normalizeLogName "" = .ok "Application"
    ∧ (toLowerStr (trimSpace name) = "" → normalizeLogName name = .ok "Application")
    ∧ (runCollector env "" provider minutes maxEvents).fetchInvoked = true
    ∧ ((∃ ch, normalizeLogName name = .ok ch) ↔
        (toLowerStr (trimSpace name) = "application" ∨ toLowerStr (trimSpace name) = ""
          ∨ toLowerStr (trimSpace name) = "system"
          ∨ toLowerStr (trimSpace name) = "setup")) := by
  refine ⟨rfl, ?_, rfl, ?_⟩
  · intro hk
    simp only [normalizeLogName]
    rw [if_pos (Or.inr hk)]
  · simp only [normalizeLogName]
    split_ifs with h1 h2 h3
    · exact ⟨fun _ => by tauto, fun _ => ⟨"Application", rfl⟩⟩
    · exact ⟨fun _ => by tauto, fun _ => ⟨"System", rfl⟩⟩
    · exact ⟨fun _ => by tauto, fun _ => ⟨"Setup", rfl⟩⟩
    · constructor
      · rintro ⟨ch, hch⟩
        exact hch.elim
      · intro hor
        rcases hor with h | h | h | h
        · exact absurd (Or.inl h) h1
        · exact absurd (Or.inr h) h1
        · exact absurd h h2
        · exact absurd h h3

/-- Witness for C10: the theorem applied at a whitespace-only name
(trimming to the empty string) and at the empty name. -/
theorem normalizeLogName_empty_accepted_witness :
    normalizeLogName "   " = .ok "Application"
    ∧ normalizeLogName "" = .ok "Application"
    ∧ (runCollector ⟨.ok 1, [], fun _ => .error "unused"⟩ "" "" 10 4).fetchInvoked
        = true :=
  ⟨(normalizeLogName_empty_accepted "   " ⟨.ok 1, [], fun _ => .error "unused"⟩ "" 10 4).2.1
      rfl,
   (normalizeLogName_empty_accepted "" ⟨.ok 1, [], fun _ => .error "unused"⟩ "" 10 4).1,
   (normalizeLogName_empty_accepted "" ⟨.ok 1, [], fun _ => .error "unused"⟩ "" 10 4).2.2.1⟩

/-- C3, counterexample: the empty string is not (case-insensitively)
one of Application, System or Setup, yet `normalizeLogName` accepts it
(mapping it to "Application") and the run proceeds into `fetchEvents`
— so the claim "every such name fails with an invalid-channel error
and zero native calls" is false at the input `""`. -/
theorem normalizeLogName_rejects_counterexample :
    normalizeLogName "" = .ok "Application"
    ∧ (runCollector ⟨.ok 1, [.noMoreItems], fun _ => .error "unused"⟩ "" "" 10 4).fetchInvoked
        = true :=
  ⟨rfl, rfl⟩

/-- C3, amended: every channel name whose whitespace-trimmed,
lowercased form is neither application, system, setup nor the empty
string is rejected by `normalizeLogName` with an unsupported-log
error, and the collector run returns that error with `fetchEvents` —
the only site of native calls — never invoked. -/
theorem normalizeLogName_rejects_invalid (name : String) (env : QueryEnv)
    (provider : String) (minutes maxEvents : Int)
    (h1 : toLowerStr (trimSpace name) ≠ "application")
    (h0 : toLowerStr (trimSpace name) ≠ "")
    (h2 : toLowerStr (trimSpace name) ≠ "system")
    (h3 : toLowerStr (trimSpace name) ≠ "setup") :
    normalizeLogName name
      = .error ("unsupported log: " ++ name ++ " (use application|system|setup)")
    ∧ (runCollector env name provider minutes maxEvents).outcome
      = .error ("unsupported log: " ++ name ++ " (use application|system|setup)")
    ∧ (runCollector env name provider minutes maxEvents).fetchInvoked = false := by
  have he : normalizeLogName name
      = .error ("unsupported log: " ++ name ++ " (use application|system|setup)") := by
    simp only [normalizeLogName]
    rw [if_neg (not_or.mpr ⟨h1, h0⟩), if_neg h2, if_neg h3]
  refine ⟨he, ?_, ?_⟩ <;> simp [runCollector, he]

/-- Witness for C3's amended theorem: applied at the concrete invalid
channel name "security". -/
theorem normalizeLogName_rejects_invalid_witness :
    normalizeLogName "security"
      = .error ("unsupported log: " ++ "security" ++ " (use application|system|setup)")
    ∧ (runCollector ⟨.ok 1, [], fun _ => .error "unused"⟩ "security" "" 10 4).fetchInvoked
        = false :=
  ⟨(normalizeLogName_rejects_invalid "security" ⟨.ok 1, [], fun _ => .error "unused"⟩
      "" 10 4 (by decide) (by decide) (by decide) (by decide)).1,
   (normalizeLogName_rejects_invalid "security" ⟨.ok 1, [], fun _ => .error "unused"⟩
      "" 10 4 (by decide) (by decide) (by decide) (by decide)).2.2⟩

/-- C4: `buildQuery` quotes the provider with Go's `strconv.Quote`
(backslash escaping).  The consumer's filter language (XPath 1.0
literals) has no backslash escapes, so for a provider containing a
double quote the generated clause is NOT well-formed — the embedded
quote still terminates the literal.  Evaluated at the failing input
`a"b` (ms = 600000), with a quote-free provider shown well-formed for
contrast. -/
theorem buildQuery_quote_breaks_clause :
    buildQuery 600000 "a\"b"
      = "*[System[Provider[@Name=\"a\\\"b\"] and TimeCreated[timediff(@SystemTime) <= 600000]]]"
    ∧ providerClauseWellFormed 600000 (buildQuery 600000 "a\"b") = false
    ∧ providerClauseWellFormed 600000
        (buildQuery 600000 "Microsoft-Windows-WindowsUpdateClient") = true
    ∧ ("a\"b").toList.contains '"' = true := by
  refine ⟨rfl, by decide, by decide, by decide⟩

/-- C1: evaluation of the claim's mocked scenario (batches of 3 and 2
handles, then Exhausted, cap 4).  `fetchEvents` does return exactly 4
records, but it closes only the 4 result handles it converted:
handles 1,2,3,4.  The 5th fetched handle is NOT closed — the
cap-reached `break` exits the inner loop before reaching it — so the
claimed "exactly 5 result-handle closes" is violated by the code
(the spec calls a leaked handle a defect). -/
theorem capScenario_closes_four_not_five :
    capScenario.outcome
      = .ok [⟨0, "Information", 1, "Prov", "msg"⟩, ⟨0, "Information", 2, "Prov", "msg"⟩,
          ⟨0, "Information", 3, "Prov", "msg"⟩, ⟨0, "Information", 4, "Prov", "msg"⟩]
    ∧ capScenario.closedResultHandles = [1, 2, 3, 4]
    ∧ capScenario.closedResultHandles.length = 4
    ∧ 5 ∉ capScenario.closedResultHandles :=
  ⟨rfl, rfl, rfl, by decide⟩

/-- C2: for every native behavior, channel, provider filter, lookback
value and positive record cap, a successful `fetchEvents` run returns
at most the cap's number of records. -/
theorem fetchEvents_at_most_max (env : QueryEnv) (logName provider : String)
    (minutes maxEvents : Int) (hpos : 0 < maxEvents)
    (recs : List EventRecord)
    (h : (fetchEvents env logName provider minutes maxEvents).outcome = Except.ok recs) :
    recs.length ≤ maxEvents.toNat := by
  have hmax : ¬ maxEvents ≤ 0 := by omega
  simp only [fetchEvents, if_neg hmax] at h
  set ms := (if minutes ≤ 0 then (10 : Int) else minutes) * 60 * 1000 with hms
  by_cases h1 : containsNUL (buildQuery ms provider) = true
  · rw [if_pos h1] at h
    simp at h
  · rw [if_neg h1] at h
    by_cases h2 : containsNUL logName = true
    · rw [if_pos h2] at h
      simp at h
    · rw [if_neg h2] at h
      rcases hq : env.queryOutcome with e | hQ
      · rw [hq] at h
        simp at h
      · rw [hq] at h
        exact fetchLoop_ok_length env.parse maxEvents.toNat env.script [] [] recs
          (by simpa using h) (Nat.zero_le _)

/-- Witness for C2: the theorem applied to a concrete two-record mock
run with cap 4. -/
theorem fetchEvents_at_most_max_witness :
    ([(⟨0, "Information", 1, "Prov", "msg"⟩ : EventRecord),
        ⟨0, "Information", 2, "Prov", "msg"⟩] : List EventRecord).length
      ≤ (4 : Int).toNat :=
  fetchEvents_at_most_max
    ⟨.ok 7, [.batch [1, 2], .noMoreItems],
      fun h => .ok ⟨0, "Information", h, "Prov", "msg"⟩⟩
    "Application" "" 10 4 (by decide)
    [⟨0, "Information", 1, "Prov", "msg"⟩, ⟨0, "Information", 2, "Prov", "msg"⟩] rfl

/-- C5: the batch enumerator signals exhaustion as a distinct value
(`ERROR_NO_MORE_ITEMS` sentinel) and wraps every other failure as a
fetch error; the collection loop treats exhaustion as a successful
stop, returning the accumulated records, while any other batch-fetch
failure aborts the whole collection with an error. -/
theorem exhaustion_nonfatal_other_fatal (parse : Nat → Except String EventRecord)
    (maxE : Nat) (rest : List EvtNextOutcome) (results : List EventRecord)
    (closed : List Nat) (e : String) (hlt : results.length < maxE) :
    evtNextBatch .noMoreItems = .error .errNoMoreItems
    ∧ evtNextBatch (.callFailure e) = .error (.fetchFailed ("EvtNext: " ++ e))
    ∧ fetchLoop parse maxE (.noMoreItems :: rest) results closed = (.ok results, closed)
    ∧ fetchLoop parse maxE (.callFailure e :: rest) results closed
        = (.error ("EvtNext: " ++ e), closed) := by
  refine ⟨rfl, rfl, ?_, ?_⟩ <;> rw [fetchLoop, if_pos hlt] <;> rfl

/-- Witness for C5: the theorem applied at an empty accumulator and
cap 4. -/
theorem exhaustion_nonfatal_other_fatal_witness :
    fetchLoop (fun _ => Except.error "unused") 4 [.noMoreItems] [] []
      = (.ok [], [])
    ∧ fetchLoop (fun _ => Except.error "unused") 4 [.callFailure "boom"] [] []
      = (.error ("EvtNext: " ++ "boom"), []) :=
  ⟨(exhaustion_nonfatal_other_fatal (fun _ => Except.error "unused") 4 [] [] []
      "boom" (by decide)).2.2.1,
   (exhaustion_nonfatal_other_fatal (fun _ => Except.error "unused") 4 [] [] []
      "boom" (by decide)).2.2.2⟩

/-- C6: in both two-phase native calls, a buffer-too-small discovery
response is accepted and is not an error while any other discovery
failure fails the record; the fill call is made at exactly the
discovered size, and its failure fails the record with the
render/format error while its success yields the text (trimmed for
message formatting). -/
theorem two_phase_discover_fill (fill : Nat → FillResult) (e : String) :
    (renderEventXML (.failure e) fill = .goError ("EvtRender(size): " ++ e)
      ∧ formatMessage (.failure e) fill = .goError ("EvtFormatMessage(size): " ++ e))
    ∧ (∀ used text, 1 ≤ used → fill used = .success text →
        renderEventXML (.insufficientBuffer used) fill = .ok text
        ∧ formatMessage (.insufficientBuffer used) fill = .ok (trimSpace text))
    ∧ (∀ used e2, 1 ≤ used → fill used = .failure e2 →
        renderEventXML (.insufficientBuffer used) fill = .goError ("EvtRender: " ++ e2)
        ∧ formatMessage (.insufficientBuffer used) fill
            = .goError ("EvtFormatMessage: " ++ e2)) := by
  refine ⟨⟨rfl, rfl⟩, ?_, ?_⟩
  · intro used text hu hf
    constructor <;>
      simp [renderEventXML, formatMessage, Nat.pos_iff_ne_zero.mp hu, hf]
  · intro used e2 hu hf
    constructor <;>
      simp [renderEventXML, formatMessage, Nat.pos_iff_ne_zero.mp hu, hf]

/-- Witness for C6: the theorem applied at discovered size 10 with a
succeeding and a failing fill call. -/
theorem two_phase_discover_fill_witness :
    renderEventXML (.failure "bad") (fun _ => .success " x ") = .goError ("EvtRender(size): " ++ "bad")
    ∧ renderEventXML (.insufficientBuffer 10) (fun _ => .success " x ") = .ok " x "
    ∧ formatMessage (.insufficientBuffer 10) (fun _ => .success " x ")
        = .ok (trimSpace " x ")
    ∧ renderEventXML (.insufficientBuffer 10) (fun _ => .failure "boom")
        = .goError ("EvtRender: " ++ "boom") :=
  ⟨(two_phase_discover_fill (fun _ => .success " x ") "bad").1.1,
   ((two_phase_discover_fill (fun _ => .success " x ") "bad").2.1 10 " x "
      (by decide) rfl).1,
   ((two_phase_discover_fill (fun _ => .success " x ") "bad").2.1 10 " x "
      (by decide) rfl).2,
   ((two_phase_discover_fill (fun _ => .failure "boom") "bad").2.2 10 "boom"
      (by decide) rfl).1⟩

/-- C7: within one run, requesting the same provider twice from the
publisher metadata cache performs exactly one metadata-open call and
returns the same single handle both times (the second request does not
even change the state); and at most one stored handle per provider
name is preserved. -/
theorem publisherCache_single_open (openMeta : String → Except String Nat)
    (provider : String) (st : CacheState) (h : Nat)
    (hmiss : findHandle st.handles provider = none)
    (hnul : containsNUL provider = false)
    (hopen : openMeta provider = .ok h)
    (hinv : ∀ k, countKey st.handles k ≤ 1) :
    (cacheGetTwice openMeta provider st).1.1 = .ok h
    ∧ (cacheGetTwice openMeta provider st).2.1 = .ok h
    ∧ (cacheGetTwice openMeta provider st).2.2 = (cacheGetTwice openMeta provider st).1.2
    ∧ (cacheGetTwice openMeta provider st).1.2.openCalls = st.openCalls ++ [provider]
    ∧ countOpens (cacheGetTwice openMeta provider st).2.2.openCalls provider
        = countOpens st.openCalls provider + 1
    ∧ (∀ k, countKey (cacheGetTwice openMeta provider st).2.2.handles k ≤ 1) := by
  have e1 : publisherCacheGet openMeta provider st
      = (.ok h, ⟨st.handles ++ [(provider, h)], st.openCalls ++ [provider]⟩) := by
    simp [publisherCacheGet, hmiss, hnul, hopen]
  have e2 : findHandle (st.handles ++ [(provider, h)]) provider = some h := by
    rw [findHandle_append_none st.handles [(provider, h)] provider hmiss]
    simp [findHandle]
  have e3 : publisherCacheGet openMeta provider
      ⟨st.handles ++ [(provider, h)], st.openCalls ++ [provider]⟩
      = (.ok h, ⟨st.handles ++ [(provider, h)], st.openCalls ++ [provider]⟩) := by
    simp [publisherCacheGet, e2]
  refine ⟨?_, ?_, ?_, ?_, ?_, ?_⟩
  · simp [cacheGetTwice, e1]
  · simp [cacheGetTwice, e1, e3]
  · simp [cacheGetTwice, e1, e3]
  · simp [cacheGetTwice, e1]
  · simp only [cacheGetTwice, e1, e3]
    simp [countOpens, List.filter_append]
  · intro k
    simp only [cacheGetTwice, e1, e3]
    by_cases hk : k = provider
    · subst hk
      have h0 : countKey st.handles k = 0 := findHandle_none_countKey st.handles k hmiss
      simp only [countKey] at h0
      simp [countKey, List.filter_append, h0]
    · have hk2 : provider ≠ k := fun hp => hk hp.symm
      have hthis := hinv k
      simpa [countKey, List.filter_append, hk2] using hthis

/-- Witness for C7: the theorem applied to an initially empty cache
and a concrete provider whose metadata-open succeeds with handle 42. -/
theorem publisherCache_single_open_witness :
    (cacheGetTwice (fun _ => .ok 42) "Prov" ⟨[], []⟩).1.1 = .ok 42
    ∧ (cacheGetTwice (fun _ => .ok 42) "Prov" ⟨[], []⟩).2.1 = .ok 42
    ∧ countOpens (cacheGetTwice (fun _ => .ok 42) "Prov" ⟨[], []⟩).2.2.openCalls "Prov"
        = countOpens ([] : List String) "Prov" + 1 :=
  ⟨(publisherCache_single_open (fun _ => .ok 42) "Prov" ⟨[], []⟩ 42 rfl rfl rfl
      (fun _ => Nat.zero_le 1)).1,
   (publisherCache_single_open (fun _ => .ok 42) "Prov" ⟨[], []⟩ 42 rfl rfl rfl
      (fun _ => Nat.zero_le 1)).2.1,
   (publisherCache_single_open (fun _ => .ok 42) "Prov" ⟨[], []⟩ 42 rfl rfl rfl
      (fun _ => Nat.zero_le 1)).2.2.2.2.1⟩

/-- C9, counterexample: when the size-discovery call succeeds outright
(nonzero return) leaving the reported size at 0, the fill phase
allocates a zero-length buffer and the `&buffer[0]` access is out of
bounds: both `renderEventXML` and `formatMessage` panic, so the claim
that every discovery outcome leaves the access in bounds is false. -/
theorem render_zero_size_panics :
    (renderEventXML (.success 0) (fun _ => .success "x")).isPanicked = true
    ∧ (formatMessage (.success 0) (fun _ => .success "x")).isPanicked = true
    ∧ (SizeProbe.success 0).reported = some 0 :=
  ⟨rfl, rfl, rfl⟩

/-- C9, amended: `renderEventXML` and `formatMessage` panic exactly
when the discovery phase proceeds with a reported required size of
zero; whenever the discovery call reports a size of at least 1 (and
whenever it fails with a non-buffer error, returning early), the fill
phase's first-element access is in bounds and no panic occurs. -/
theorem render_format_panic_iff (probe : SizeProbe) (fill : Nat → FillResult) :
    ((renderEventXML probe fill).isPanicked = true ↔ probe.reported = some 0)
    ∧ ((formatMessage probe fill).isPanicked = true ↔ probe.reported = some 0) := by
  constructor
  · cases probe with
    | failure e =>
      simp [renderEventXML, GoResult.isPanicked, SizeProbe.reported]
    | success u =>
      by_cases hu : u = 0
      · subst hu
        simp [renderEventXML, GoResult.isPanicked, SizeProbe.reported]
      · cases hf : fill u <;>
          simp [renderEventXML, GoResult.isPanicked, SizeProbe.reported, hu, hf]
    | insufficientBuffer u =>
      by_cases hu : u = 0
      · subst hu
        simp [renderEventXML, GoResult.isPanicked, SizeProbe.reported]
      · cases hf : fill u <;>
          simp [renderEventXML, GoResult.isPanicked, SizeProbe.reported, hu, hf]
  · cases probe with
    | failure e =>
      simp [formatMessage, GoResult.isPanicked, SizeProbe.reported]
    | success u =>
      by_cases hu : u = 0
      · subst hu
        simp [formatMessage, GoResult.isPanicked, SizeProbe.reported]
      · cases hf : fill u <;>
          simp [formatMessage, GoResult.isPanicked, SizeProbe.reported, hu, hf]
    | insufficientBuffer u =>
      by_cases hu : u = 0
      · subst hu
        simp [formatMessage, GoResult.isPanicked, SizeProbe.reported]
      · cases hf : fill u <;>
          simp [formatMessage, GoResult.isPanicked, SizeProbe.reported, hu, hf]

end WinOpsGuard
